import Mathlib

/-!
Verification of the tree-detection geometry and decoding pipeline.

The development shallowly embeds the algorithmic core of the repository:
the crop-rectangle geometry of treeCropper.ts and defectDetection.ts,
the YOLO output decoder of yoloInference.ts, the channel-major
preprocessor of preprocessImage.ts, the save orchestration of
tree-detection.tsx, and the record store of treeDatabase.ts.
Real-number arithmetic of the source is modelled over the rationals.
-/

/-- JavaScript Math.round semantics: round half toward positive infinity. -/
def jsRound (q : ℚ) : ℤ := ⌊q + 1/2⌋

/-- Normalized crop box, relative coordinates (treeCropper.ts, CropCoordinates). -/
structure CropCoordinates where
  x : ℚ
  y : ℚ
  width : ℚ
  height : ℚ
deriving DecidableEq

/-- Integer pixel rectangle produced by the clamping step of the crop functions. -/
structure PixelRect where
  clampedX : ℤ
  clampedY : ℤ
  clampedWidth : ℤ
  clampedHeight : ℤ
deriving DecidableEq

/-- Pixel-rectangle computation of cropTreeWithDimensions
(treeCropper.ts, lines 49-60): round each relative coordinate times the
image dimension, clamp the origin into the image, clamp the extent to be
at least 1 and to fit the image. -/
def cropTreeWithDimensions (c : CropCoordinates) (imageWidth imageHeight : ℤ) : PixelRect :=
  let pixelX := jsRound (c.x * (imageWidth : ℚ))
  let pixelY := jsRound (c.y * (imageHeight : ℚ))
  let pixelWidth := jsRound (c.width * (imageWidth : ℚ))
  let pixelHeight := jsRound (c.height * (imageHeight : ℚ))
  let clampedX := max 0 (min pixelX (imageWidth - 1))
  let clampedY := max 0 (min pixelY (imageHeight - 1))
  let clampedWidth := max 1 (min pixelWidth (imageWidth - clampedX))
  let clampedHeight := max 1 (min pixelHeight (imageHeight - clampedY))
  ⟨clampedX, clampedY, clampedWidth, clampedHeight⟩

/-- Pixel-rectangle computation of cropDefect (defectDetection.ts,
lines 175-188): the box arrives in corner form xtl, ytl, xbr, ybr; the
extent is rounded from the corner difference; the clamping is identical
to cropTreeWithDimensions. -/
def cropDefect (xtl ytl xbr ybr : ℚ) (imageWidth imageHeight : ℤ) : PixelRect :=
  let pixelX := jsRound (xtl * (imageWidth : ℚ))
  let pixelY := jsRound (ytl * (imageHeight : ℚ))
  let pixelWidth := jsRound ((xbr - xtl) * (imageWidth : ℚ))
  let pixelHeight := jsRound ((ybr - ytl) * (imageHeight : ℚ))
  let clampedX := max 0 (min pixelX (imageWidth - 1))
  let clampedY := max 0 (min pixelY (imageHeight - 1))
  let clampedWidth := max 1 (min pixelWidth (imageWidth - clampedX))
  let clampedHeight := max 1 (min pixelHeight (imageHeight - clampedY))
  ⟨clampedX, clampedY, clampedWidth, clampedHeight⟩

/-- Core clamping fact shared by both crop paths: for any rounded origin
p and extent q along an axis of size w ≥ 2, the clamped origin is
nonnegative, origin plus extent stays within w, and the extent is at
least 1. -/
lemma clamp_axis_bounds (p q w : ℤ) (hw : 2 ≤ w) :
    0 ≤ max 0 (min p (w - 1)) ∧
    max 0 (min p (w - 1)) + max 1 (min q (w - max 0 (min p (w - 1)))) ≤ w ∧
    1 ≤ max 1 (min q (w - max 0 (min p (w - 1)))) := by
  have h0 : (0 : ℤ) ≤ max 0 (min p (w - 1)) := le_max_left _ _
  have h1 : max 0 (min p (w - 1)) ≤ w - 1 :=
    max_le (by omega) (min_le_right _ _)
  have h2 : (1 : ℤ) ≤ w - max 0 (min p (w - 1)) := by omega
  have h3 : max 1 (min q (w - max 0 (min p (w - 1)))) ≤ w - max 0 (min p (w - 1)) :=
    max_le h2 (min_le_right _ _)
  exact ⟨h0, by omega, le_max_left _ _⟩

/-- C1: for every normalized crop box and every source image with both
dimensions at least 2, the clamped pixel rectangle computed by
cropTreeWithDimensions is non-empty and fully inside the image:
0 ≤ clampedX, clampedX + clampedWidth ≤ imageWidth, clampedWidth ≥ 1,
and symmetrically for the vertical axis. -/
theorem cropTreeWithDimensions_inBounds (c : CropCoordinates) (imageWidth imageHeight : ℤ)
    (hx : 0 ≤ c.x ∧ c.x ≤ 1) (hy : 0 ≤ c.y ∧ c.y ≤ 1)
    (hw : 0 ≤ c.width ∧ c.width ≤ 1) (hh : 0 ≤ c.height ∧ c.height ≤ 1)
    (hW : 2 ≤ imageWidth) (hH : 2 ≤ imageHeight) :
    (0 ≤ (cropTreeWithDimensions c imageWidth imageHeight).clampedX ∧
      (cropTreeWithDimensions c imageWidth imageHeight).clampedX
        + (cropTreeWithDimensions c imageWidth imageHeight).clampedWidth ≤ imageWidth ∧
      1 ≤ (cropTreeWithDimensions c imageWidth imageHeight).clampedWidth) ∧
    (0 ≤ (cropTreeWithDimensions c imageWidth imageHeight).clampedY ∧
      (cropTreeWithDimensions c imageWidth imageHeight).clampedY
        + (cropTreeWithDimensions c imageWidth imageHeight).clampedHeight ≤ imageHeight ∧
      1 ≤ (cropTreeWithDimensions c imageWidth imageHeight).clampedHeight) :=
  ⟨clamp_axis_bounds (jsRound (c.x * (imageWidth : ℚ))) (jsRound (c.width * (imageWidth : ℚ)))
      imageWidth hW,
    clamp_axis_bounds (jsRound (c.y * (imageHeight : ℚ))) (jsRound (c.height * (imageHeight : ℚ)))
      imageHeight hH⟩

/-- C1 witness: the spec example, a box at x = 0.999, y = 0.999 of size
0.5 by 0.5 against a 100 by 100 image, still yields an in-bounds
non-empty rectangle (concretely the rectangle (99, 99, 1, 1)). -/
theorem cropTreeWithDimensions_inBounds_witness :
    ((0 : ℚ) ≤ 999/1000 ∧ (999/1000 : ℚ) ≤ 1) ∧ ((0 : ℚ) ≤ 1/2 ∧ (1/2 : ℚ) ≤ 1) ∧
    ((2 : ℤ) ≤ 100) ∧
    ((0 ≤ (cropTreeWithDimensions ⟨999/1000, 999/1000, 1/2, 1/2⟩ 100 100).clampedX ∧
      (cropTreeWithDimensions ⟨999/1000, 999/1000, 1/2, 1/2⟩ 100 100).clampedX
        + (cropTreeWithDimensions ⟨999/1000, 999/1000, 1/2, 1/2⟩ 100 100).clampedWidth ≤ 100 ∧
      1 ≤ (cropTreeWithDimensions ⟨999/1000, 999/1000, 1/2, 1/2⟩ 100 100).clampedWidth) ∧
    (0 ≤ (cropTreeWithDimensions ⟨999/1000, 999/1000, 1/2, 1/2⟩ 100 100).clampedY ∧
      (cropTreeWithDimensions ⟨999/1000, 999/1000, 1/2, 1/2⟩ 100 100).clampedY
        + (cropTreeWithDimensions ⟨999/1000, 999/1000, 1/2, 1/2⟩ 100 100).clampedHeight ≤ 100 ∧
      1 ≤ (cropTreeWithDimensions ⟨999/1000, 999/1000, 1/2, 1/2⟩ 100 100).clampedHeight)) ∧
    cropTreeWithDimensions ⟨999/1000, 999/1000, 1/2, 1/2⟩ 100 100 = ⟨99, 99, 1, 1⟩ :=
  ⟨⟨by norm_num, by norm_num⟩, ⟨by norm_num, by norm_num⟩, by norm_num,
    cropTreeWithDimensions_inBounds ⟨999/1000, 999/1000, 1/2, 1/2⟩ 100 100
      ⟨by norm_num, by norm_num⟩ ⟨by norm_num, by norm_num⟩
      ⟨by norm_num, by norm_num⟩ ⟨by norm_num, by norm_num⟩ (by norm_num) (by norm_num),
    by norm_num [cropTreeWithDimensions, jsRound, max_def, min_def]⟩

/-- C10: the tree-crop path and the defect-crop path compute the same
clamped pixel rectangle whenever the defect corners are exactly the tree
box corners, xtl = x, ytl = y, xbr = x + width, ybr = y + height. -/
theorem cropDefect_eq_cropTreeWithDimensions (c : CropCoordinates) (imageWidth imageHeight : ℤ) :
    cropDefect c.x c.y (c.x + c.width) (c.y + c.height) imageWidth imageHeight
      = cropTreeWithDimensions c imageWidth imageHeight := by
  have h1 : c.x + c.width - c.x = c.width := by ring
  have h2 : c.y + c.height - c.y = c.height := by ring
  simp only [cropDefect, cropTreeWithDimensions, h1, h2]

/-- One raw row of YOLO output: six values x1, y1, x2, y2, confidence,
classId (yoloInference.ts, lines 61-73). Coordinates are absolute pixels
of the 640 by 640 model input space; classId is read but unused. -/
structure RawRow where
  x1 : ℚ
  y1 : ℚ
  x2 : ℚ
  y2 : ℚ
  conf : ℚ
  classId : ℚ
deriving DecidableEq

/-- Detected tree record (yoloInference.ts, DetectedTree interface). -/
structure DetectedTree where
  id : String
  x : ℚ
  y : ℚ
  width : ℚ
  height : ℚ
  xbr : ℚ
  ybr : ℚ
  selected : Bool
deriving DecidableEq

instance : Inhabited DetectedTree := ⟨⟨"", 0, 0, 0, 0, 0, 0, false⟩⟩

/-- Confidence threshold of the decoder (yoloInference.ts, line 59). -/
def confidenceThreshold : ℚ := 1/2

/-- Model input side (yoloInference.ts, line 80). -/
def imageSize : ℚ := 640

/-- Clamp to the unit interval: Math.max(0, Math.min(1, q)). -/
def clamp01 (q : ℚ) : ℚ := max 0 (min 1 q)

/-- Conversion of one confident raw row into a DetectedTree
(yoloInference.ts, lines 79-103). The argument n is the number of boxes
pushed so far, so the pre-sort identifier is tree_(n+1). The corner sums
feeding xbr and ybr use the unclamped local values, exactly as in the
source. -/
def decodeRow (n : Nat) (r : RawRow) : DetectedTree :=
  let x1rel := r.x1 / imageSize
  let y1rel := r.y1 / imageSize
  let x2rel := r.x2 / imageSize
  let y2rel := r.y2 / imageSize
  let x := x1rel
  let y := y1rel
  let width := x2rel - x1rel
  let height := y2rel - y1rel
  { id := "tree_" ++ toString (n + 1)
    x := clamp01 x
    y := clamp01 y
    width := clamp01 width
    height := clamp01 height
    xbr := clamp01 (x + width)
    ybr := clamp01 (y + height)
    selected := true }

/-- Filtering loop of runYOLOInference (yoloInference.ts, lines 65-107):
rows whose confidence is strictly above the threshold are decoded and
pushed, paired with their confidence. -/
def detectedWithConfidence (n : Nat) : List RawRow → List (DetectedTree × ℚ)
  | [] => []
  | r :: rs =>
    if confidenceThreshold < r.conf then
      (decodeRow n r, r.conf) :: detectedWithConfidence (n + 1) rs
    else
      detectedWithConfidence n rs

/-- Sort order of the comparator (a, b) => b.confidence - a.confidence
(yoloInference.ts, line 110): a may stay before b exactly when the
confidence of b does not exceed the confidence of a. -/
def confDesc (a b : DetectedTree × ℚ) : Bool := decide (b.2 ≤ a.2)

/-- Stable sort of the decoded pairs by confidence descending
(yoloInference.ts, line 110); Array.prototype.sort is stable. -/
def sortedPairs (rows : List RawRow) : List (DetectedTree × ℚ) :=
  (detectedWithConfidence 0 rows).mergeSort confDesc

/-- Post-sort identifier reassignment (yoloInference.ts, lines 113-116):
the identifier of the box at position i becomes tree_(i+1). -/
def assignIds (n : Nat) : List (DetectedTree × ℚ) → List DetectedTree
  | [] => []
  | p :: ps => { p.1 with id := "tree_" ++ toString (n + 1) } :: assignIds (n + 1) ps

/-- Pure core of runYOLOInference (yoloInference.ts, lines 57-135):
filter by confidence, decode, sort descending, reassign identifiers. -/
def runYOLOInference (rows : List RawRow) : List DetectedTree :=
  assignIds 0 (sortedPairs rows)

lemma detectedWithConfidence_map_snd (n : Nat) (rows : List RawRow) :
    (detectedWithConfidence n rows).map Prod.snd
      = (rows.filter fun r => decide (confidenceThreshold < r.conf)).map RawRow.conf := by
  induction rows generalizing n with
  | nil => rfl
  | cons r rs ih =>
    by_cases h : confidenceThreshold < r.conf <;>
      simp [detectedWithConfidence, List.filter_cons, h, ih]

lemma detectedWithConfidence_eq_nil (n : Nat) (rows : List RawRow)
    (h : ∀ r ∈ rows, r.conf ≤ confidenceThreshold) :
    detectedWithConfidence n rows = [] := by
  induction rows generalizing n with
  | nil => rfl
  | cons r rs ih =>
    have hr : ¬ confidenceThreshold < r.conf := not_lt.mpr (h r (by simp))
    simp only [detectedWithConfidence, if_neg hr]
    exact ih _ fun s hs => h s (by simp [hs])

/-- C3: the decoder keeps exactly the raw rows whose confidence is
strictly greater than the threshold 0.5: the kept confidences are, in
order, those of the rows passing the strict comparison; a row with
confidence equal to the threshold contributes nothing; a row strictly
above the threshold is kept; and when no row exceeds the threshold the
result is the empty list, not an error. -/
theorem runYOLOInference_threshold (rows : List RawRow) :
    (detectedWithConfidence 0 rows).map Prod.snd
      = (rows.filter fun r => decide (confidenceThreshold < r.conf)).map RawRow.conf
    ∧ ((∀ r ∈ rows, r.conf ≤ confidenceThreshold) → runYOLOInference rows = [])
    ∧ (∀ r ∈ rows, confidenceThreshold < r.conf →
        r.conf ∈ (detectedWithConfidence 0 rows).map Prod.snd) := by
  refine ⟨detectedWithConfidence_map_snd 0 rows, ?_, ?_⟩
  · intro h
    unfold runYOLOInference sortedPairs
    rw [detectedWithConfidence_eq_nil 0 rows h]
    simp [List.mergeSort_nil, assignIds]
  · intro r hr hconf
    rw [detectedWithConfidence_map_snd 0 rows]
    exact List.mem_map.mpr ⟨r, List.mem_filter.mpr ⟨hr, by simpa using hconf⟩, rfl⟩

/-- C3 witness: a single row at confidence exactly 0.5 produces the
empty output, and a confidence of 0.5 + 0.01 is kept. -/
theorem runYOLOInference_threshold_witness :
    runYOLOInference [⟨0, 0, 0, 0, 1/2, 0⟩] = []
    ∧ ((1 : ℚ)/2 + 1/100)
        ∈ (detectedWithConfidence 0 [⟨0, 0, 0, 0, 1/2 + 1/100, 0⟩]).map Prod.snd := by
  constructor
  · exact (runYOLOInference_threshold [⟨0, 0, 0, 0, 1/2, 0⟩]).2.1
      (by intro r hr; rw [List.mem_singleton.mp hr]; norm_num [confidenceThreshold])
  · exact (runYOLOInference_threshold [⟨0, 0, 0, 0, 1/2 + 1/100, 0⟩]).2.2
      ⟨0, 0, 0, 0, 1/2 + 1/100, 0⟩ (by simp) (by norm_num [confidenceThreshold])

lemma sortedPairs_pairwise (rows : List RawRow) :
    (sortedPairs rows).Pairwise (fun a b => b.2 ≤ a.2) := by
  have h := @List.sorted_mergeSort (DetectedTree × ℚ) confDesc
    (fun a b c hab hbc => by
      simp only [confDesc, decide_eq_true_eq] at *
      exact le_trans hbc hab)
    (fun a b => by simp only [confDesc, Bool.or_eq_true, decide_eq_true_eq]; exact le_total b.2 a.2)
    (detectedWithConfidence 0 rows)
  exact h.imp fun hab => by simpa [confDesc] using hab

lemma assignIds_length (n : Nat) (ps : List (DetectedTree × ℚ)) :
    (assignIds n ps).length = ps.length := by
  induction ps generalizing n with
  | nil => rfl
  | cons p ps ih => simp [assignIds, ih]

lemma assignIds_getD (n i : Nat) (ps : List (DetectedTree × ℚ)) (h : i < ps.length) :
    (assignIds n ps).getD i default
      = { (ps.getD i default).1 with id := "tree_" ++ toString (n + i + 1) } := by
  induction ps generalizing n i with
  | nil => simp at h
  | cons p ps ih =>
    cases i with
    | zero => simp [assignIds]
    | succ i =>
      have hi : i < ps.length := by simpa using h
      have harith : n + 1 + i + 1 = n + (i + 1) + 1 := by omega
      simp only [assignIds, List.getD_cons_succ]
      rw [ih (n + 1) i hi, harith]

/-- C2: the decoded pairs are sorted by confidence in descending order,
the returned box list has the same length, and the box at position i is
the tree of the i-th sorted pair with its identifier reassigned to
tree_(i+1) — so identifier rank order always matches
descending-confidence order regardless of the input row order. -/
theorem runYOLOInference_sorted_ids (rows : List RawRow) :
    ((sortedPairs rows).map Prod.snd).Pairwise (fun a b => b ≤ a)
    ∧ (runYOLOInference rows).length = (sortedPairs rows).length
    ∧ ∀ i, i < (runYOLOInference rows).length →
        (runYOLOInference rows).getD i default
          = { ((sortedPairs rows).getD i default).1 with id := "tree_" ++ toString (i + 1) } := by
  refine ⟨?_, ?_, ?_⟩
  · rw [List.pairwise_map]
    exact sortedPairs_pairwise rows
  · exact assignIds_length 0 (sortedPairs rows)
  · intro i hi
    rw [runYOLOInference, assignIds_length] at hi
    have := assignIds_getD 0 i (sortedPairs rows) hi
    simpa [runYOLOInference] using this

lemma mergeSort_pair {α : Type} (a b : α) (le : α → α → Bool) :
    List.mergeSort [a, b] le = if le a b then [a, b] else [b, a] := by
  rw [List.mergeSort]
  simp [List.splitInTwo, List.splitAt, List.splitAt.go, List.merge]

/-- C2 witness: two rows with confidences 0.6 and 0.95, given in that
input order, come back with the 0.95 box first as tree_1 and the 0.6 box
second as tree_2, and the sorted confidences are descending. -/
theorem runYOLOInference_sorted_ids_witness :
    (runYOLOInference [⟨0, 0, 320, 320, 3/5, 0⟩, ⟨0, 0, 640, 640, 19/20, 0⟩]).getD 0 default
      = { ((sortedPairs [⟨0, 0, 320, 320, 3/5, 0⟩, ⟨0, 0, 640, 640, 19/20, 0⟩]).getD 0 default).1
            with id := "tree_1" }
    ∧ (runYOLOInference [⟨0, 0, 320, 320, 3/5, 0⟩, ⟨0, 0, 640, 640, 19/20, 0⟩]).getD 1 default
      = { ((sortedPairs [⟨0, 0, 320, 320, 3/5, 0⟩, ⟨0, 0, 640, 640, 19/20, 0⟩]).getD 1 default).1
            with id := "tree_2" }
    ∧ (sortedPairs [⟨0, 0, 320, 320, 3/5, 0⟩, ⟨0, 0, 640, 640, 19/20, 0⟩]).map Prod.snd
        = [19/20, 3/5]
    ∧ ((sortedPairs [⟨0, 0, 320, 320, 3/5, 0⟩, ⟨0, 0, 640, 640, 19/20, 0⟩]).map
        Prod.snd).Pairwise (fun a b => b ≤ a) := by
  have hdet : detectedWithConfidence 0 [⟨0, 0, 320, 320, 3/5, 0⟩, ⟨0, 0, 640, 640, 19/20, 0⟩]
      = [(decodeRow 0 ⟨0, 0, 320, 320, 3/5, 0⟩, 3/5),
          (decodeRow 1 ⟨0, 0, 640, 640, 19/20, 0⟩, 19/20)] := by
    simp only [detectedWithConfidence]
    rw [if_pos (by norm_num [confidenceThreshold]), if_pos (by norm_num [confidenceThreshold])]
  have hsort : sortedPairs [⟨0, 0, 320, 320, 3/5, 0⟩, ⟨0, 0, 640, 640, 19/20, 0⟩]
      = [(decodeRow 1 ⟨0, 0, 640, 640, 19/20, 0⟩, 19/20),
          (decodeRow 0 ⟨0, 0, 320, 320, 3/5, 0⟩, 3/5)] := by
    rw [sortedPairs, hdet, mergeSort_pair]
    rw [if_neg (by simp only [confDesc, decide_eq_true_eq]; norm_num)]
  have h := runYOLOInference_sorted_ids [⟨0, 0, 320, 320, 3/5, 0⟩, ⟨0, 0, 640, 640, 19/20, 0⟩]
  have hlen : (runYOLOInference [⟨0, 0, 320, 320, 3/5, 0⟩, ⟨0, 0, 640, 640, 19/20, 0⟩]).length
      = 2 := by rw [h.2.1, hsort]; rfl
  refine ⟨?_, ?_, ?_, h.1⟩
  · have h0 := h.2.2 0 (by rw [hlen]; norm_num)
    simpa using h0
  · have h1 := h.2.2 1 (by rw [hlen]; norm_num)
    simpa using h1
  · rw [hsort]
    rfl

lemma clamp01_nonneg (q : ℚ) : 0 ≤ clamp01 q := le_max_left _ _

lemma clamp01_le_one (q : ℚ) : clamp01 q ≤ 1 :=
  max_le zero_le_one (min_le_left _ _)

lemma clamp01_eq_self {q : ℚ} (h0 : 0 ≤ q) (h1 : q ≤ 1) : clamp01 q = q := by
  rw [clamp01, min_eq_right h1, max_eq_right h0]

lemma mem_assignIds {t : DetectedTree} (n : Nat) (ps : List (DetectedTree × ℚ)) :
    t ∈ assignIds n ps →
      ∃ p ∈ ps, ∃ m : Nat, t = { p.1 with id := "tree_" ++ toString (m + 1) } := by
  induction ps generalizing n with
  | nil => simp [assignIds]
  | cons p ps ih =>
    intro ht
    rcases (List.mem_cons).mp ht with h | h
    · exact ⟨p, by simp, n, h⟩
    · obtain ⟨q, hq, m, rfl⟩ := ih (n + 1) h
      exact ⟨q, by simp [hq], m, rfl⟩

lemma mem_detectedWithConfidence {p : DetectedTree × ℚ} (n : Nat) (rows : List RawRow) :
    p ∈ detectedWithConfidence n rows →
      ∃ m : Nat, ∃ r ∈ rows, p = (decodeRow m r, r.conf) := by
  induction rows generalizing n with
  | nil => simp [detectedWithConfidence]
  | cons r rs ih =>
    intro hp
    by_cases h : confidenceThreshold < r.conf
    · rw [detectedWithConfidence, if_pos h] at hp
      rcases (List.mem_cons).mp hp with h0 | h0
      · exact ⟨n, r, by simp, h0⟩
      · obtain ⟨m, s, hs, rfl⟩ := ih (n + 1) h0
        exact ⟨m, s, by simp [hs], rfl⟩
    · rw [detectedWithConfidence, if_neg h] at hp
      obtain ⟨m, s, hs, rfl⟩ := ih n hp
      exact ⟨m, s, by simp [hs], rfl⟩

lemma mem_runYOLOInference {t : DetectedTree} (rows : List RawRow) :
    t ∈ runYOLOInference rows →
      ∃ m k : Nat, ∃ r ∈ rows,
        t = { decodeRow k r with id := "tree_" ++ toString (m + 1) } := by
  intro ht
  obtain ⟨p, hp, m, rfl⟩ := mem_assignIds 0 (sortedPairs rows) ht
  have hp' : p ∈ detectedWithConfidence 0 rows := by
    rw [sortedPairs] at hp
    exact List.mem_mergeSort.mp hp
  obtain ⟨k, r, hr, rfl⟩ := mem_detectedWithConfidence 0 rows hp'
  exact ⟨m, k, r, hr, rfl⟩

/-- C4: every box emitted by the decoder has all six coordinate fields
x, y, width, height, xbr, ybr within [0, 1], for every raw output
tensor, including rows whose raw corners are negative or exceed 640. -/
theorem runYOLOInference_fields_clamped (rows : List RawRow) :
    ∀ t ∈ runYOLOInference rows,
      (0 ≤ t.x ∧ t.x ≤ 1) ∧ (0 ≤ t.y ∧ t.y ≤ 1)
      ∧ (0 ≤ t.width ∧ t.width ≤ 1) ∧ (0 ≤ t.height ∧ t.height ≤ 1)
      ∧ (0 ≤ t.xbr ∧ t.xbr ≤ 1) ∧ (0 ≤ t.ybr ∧ t.ybr ≤ 1) := by
  intro t ht
  obtain ⟨m, k, r, _, rfl⟩ := mem_runYOLOInference rows ht
  simp only [decodeRow]
  exact ⟨⟨clamp01_nonneg _, clamp01_le_one _⟩, ⟨clamp01_nonneg _, clamp01_le_one _⟩,
    ⟨clamp01_nonneg _, clamp01_le_one _⟩, ⟨clamp01_nonneg _, clamp01_le_one _⟩,
    ⟨clamp01_nonneg _, clamp01_le_one _⟩, ⟨clamp01_nonneg _, clamp01_le_one _⟩⟩

/-- C4 witness: a row with corners far outside the model input space,
x1 = -320, y1 = -320, x2 = 960, y2 = 960, still produces a box whose six
fields all lie in [0, 1]. -/
theorem runYOLOInference_fields_clamped_witness :
    ((runYOLOInference [⟨-320, -320, 960, 960, 9/10, 0⟩]).getD 0 default
        ∈ runYOLOInference [⟨-320, -320, 960, 960, 9/10, 0⟩])
    ∧ ((0 ≤ ((runYOLOInference [⟨-320, -320, 960, 960, 9/10, 0⟩]).getD 0 default).x
        ∧ ((runYOLOInference [⟨-320, -320, 960, 960, 9/10, 0⟩]).getD 0 default).x ≤ 1)
      ∧ (0 ≤ ((runYOLOInference [⟨-320, -320, 960, 960, 9/10, 0⟩]).getD 0 default).y
        ∧ ((runYOLOInference [⟨-320, -320, 960, 960, 9/10, 0⟩]).getD 0 default).y ≤ 1)
      ∧ (0 ≤ ((runYOLOInference [⟨-320, -320, 960, 960, 9/10, 0⟩]).getD 0 default).width
        ∧ ((runYOLOInference [⟨-320, -320, 960, 960, 9/10, 0⟩]).getD 0 default).width ≤ 1)
      ∧ (0 ≤ ((runYOLOInference [⟨-320, -320, 960, 960, 9/10, 0⟩]).getD 0 default).height
        ∧ ((runYOLOInference [⟨-320, -320, 960, 960, 9/10, 0⟩]).getD 0 default).height ≤ 1)
      ∧ (0 ≤ ((runYOLOInference [⟨-320, -320, 960, 960, 9/10, 0⟩]).getD 0 default).xbr
        ∧ ((runYOLOInference [⟨-320, -320, 960, 960, 9/10, 0⟩]).getD 0 default).xbr ≤ 1)
      ∧ (0 ≤ ((runYOLOInference [⟨-320, -320, 960, 960, 9/10, 0⟩]).getD 0 default).ybr
        ∧ ((runYOLOInference [⟨-320, -320, 960, 960, 9/10, 0⟩]).getD 0 default).ybr ≤ 1)) := by
  have hrun : runYOLOInference [⟨-320, -320, 960, 960, 9/10, 0⟩]
      = [{ decodeRow 0 ⟨-320, -320, 960, 960, 9/10, 0⟩ with id := "tree_" ++ toString (0 + 1) }] := by
    rw [runYOLOInference, sortedPairs]
    rw [show detectedWithConfidence 0 [⟨-320, -320, 960, 960, 9/10, 0⟩]
        = [(decodeRow 0 ⟨-320, -320, 960, 960, 9/10, 0⟩, 9/10)] by
      simp only [detectedWithConfidence]
      rw [if_pos (by norm_num [confidenceThreshold])]]
    rw [List.mergeSort_singleton]
    rfl
  have hmem : (runYOLOInference [⟨-320, -320, 960, 960, 9/10, 0⟩]).getD 0 default
      ∈ runYOLOInference [⟨-320, -320, 960, 960, 9/10, 0⟩] := by
    rw [hrun]
    simp
  exact ⟨hmem, runYOLOInference_fields_clamped [⟨-320, -320, 960, 960, 9/10, 0⟩] _ hmem⟩

/-- C5 counterexample: the emitted box for the raw row
(x1, y1, x2, y2) = (-320, 0, 320, 640) with confidence 0.9 has stored
fields x = 0, width = 1, xbr = 1/2, so xbr differs from x + width: the
source clamps the sum of the unclamped locals, not the sum of the stored
fields. -/
theorem runYOLOInference_xbr_sum_counterexample :
    ∃ t ∈ runYOLOInference [⟨-320, 0, 320, 640, 9/10, 0⟩],
      ¬ (t.xbr = t.x + t.width ∧ t.ybr = t.y + t.height) := by
  have hrun : runYOLOInference [⟨-320, 0, 320, 640, 9/10, 0⟩]
      = [{ decodeRow 0 ⟨-320, 0, 320, 640, 9/10, 0⟩ with id := "tree_" ++ toString (0 + 1) }] := by
    rw [runYOLOInference, sortedPairs]
    rw [show detectedWithConfidence 0 [⟨-320, 0, 320, 640, 9/10, 0⟩]
        = [(decodeRow 0 ⟨-320, 0, 320, 640, 9/10, 0⟩, 9/10)] by
      simp only [detectedWithConfidence]
      rw [if_pos (by norm_num [confidenceThreshold])]]
    rw [List.mergeSort_singleton]
    rfl
  refine ⟨{ decodeRow 0 ⟨-320, 0, 320, 640, 9/10, 0⟩ with id := "tree_" ++ toString (0 + 1) },
    by rw [hrun]; simp, ?_⟩
  intro hcontra
  have hx := hcontra.1
  simp only [decodeRow] at hx
  norm_num [clamp01, imageSize, max_def, min_def] at hx

lemma clamp01_corner_sum {a b : ℚ} (h0 : 0 ≤ a) (hab : a ≤ b) (hb : b ≤ 640) :
    clamp01 (a / imageSize + (b / imageSize - a / imageSize))
      = clamp01 (a / imageSize) + clamp01 (b / imageSize - a / imageSize) := by
  have hpos : (0 : ℚ) < imageSize := by norm_num [imageSize]
  have hu0 : 0 ≤ a / imageSize := div_nonneg h0 (le_of_lt hpos)
  have hv1 : b / imageSize ≤ 1 := (div_le_one hpos).mpr (by rw [imageSize]; exact hb)
  have huv : a / imageSize ≤ b / imageSize := (div_le_div_iff_of_pos_right hpos).mpr hab
  have hu1 : a / imageSize ≤ 1 := le_trans huv hv1
  have hsum : a / imageSize + (b / imageSize - a / imageSize) = b / imageSize := by ring
  rw [hsum, clamp01_eq_self (le_trans hu0 huv) hv1, clamp01_eq_self hu0 hu1,
    clamp01_eq_self (sub_nonneg.mpr huv) (by linarith)]
  ring

/-- C5 amended: for raw rows whose corners are well-ordered and inside
the model input space, 0 ≤ x1 ≤ x2 ≤ 640 and 0 ≤ y1 ≤ y2 ≤ 640, every
emitted box satisfies xbr = x + width and ybr = y + height over its
stored fields; in general the stored xbr and ybr are the clamps of the
sums of the unclamped relative values, not of the stored fields. -/
theorem runYOLOInference_xbr_sum_inRange (rows : List RawRow)
    (hin : ∀ r ∈ rows, 0 ≤ r.x1 ∧ r.x1 ≤ r.x2 ∧ r.x2 ≤ 640
        ∧ 0 ≤ r.y1 ∧ r.y1 ≤ r.y2 ∧ r.y2 ≤ 640) :
    ∀ t ∈ runYOLOInference rows, t.xbr = t.x + t.width ∧ t.ybr = t.y + t.height := by
  intro t ht
  obtain ⟨m, k, r, hr, rfl⟩ := mem_runYOLOInference rows ht
  obtain ⟨hx0, hx12, hx2, hy0, hy12, hy2⟩ := hin r hr
  simp only [decodeRow]
  exact ⟨clamp01_corner_sum hx0 hx12 hx2, clamp01_corner_sum hy0 hy12 hy2⟩

/-- C5 witness: for the in-range row (0, 0, 320, 320) at confidence 0.9,
the emitted box satisfies xbr = x + width and ybr = y + height. -/
theorem runYOLOInference_xbr_sum_inRange_witness :
    ((runYOLOInference [⟨0, 0, 320, 320, 9/10, 0⟩]).getD 0 default).xbr
        = ((runYOLOInference [⟨0, 0, 320, 320, 9/10, 0⟩]).getD 0 default).x
          + ((runYOLOInference [⟨0, 0, 320, 320, 9/10, 0⟩]).getD 0 default).width
    ∧ ((runYOLOInference [⟨0, 0, 320, 320, 9/10, 0⟩]).getD 0 default).ybr
        = ((runYOLOInference [⟨0, 0, 320, 320, 9/10, 0⟩]).getD 0 default).y
          + ((runYOLOInference [⟨0, 0, 320, 320, 9/10, 0⟩]).getD 0 default).height := by
  have hrun : runYOLOInference [⟨0, 0, 320, 320, 9/10, 0⟩]
      = [{ decodeRow 0 ⟨0, 0, 320, 320, 9/10, 0⟩ with id := "tree_" ++ toString (0 + 1) }] := by
    rw [runYOLOInference, sortedPairs]
    rw [show detectedWithConfidence 0 [⟨0, 0, 320, 320, 9/10, 0⟩]
        = [(decodeRow 0 ⟨0, 0, 320, 320, 9/10, 0⟩, 9/10)] by
      simp only [detectedWithConfidence]
      rw [if_pos (by norm_num [confidenceThreshold])]]
    rw [List.mergeSort_singleton]
    rfl
  have hmem : (runYOLOInference [⟨0, 0, 320, 320, 9/10, 0⟩]).getD 0 default
      ∈ runYOLOInference [⟨0, 0, 320, 320, 9/10, 0⟩] := by
    rw [hrun]
    simp
  exact runYOLOInference_xbr_sum_inRange [⟨0, 0, 320, 320, 9/10, 0⟩]
    (by intro r hr; rw [List.mem_singleton.mp hr]; norm_num) _ hmem

/-- Decoded RGBA image (the pngjs decode in preprocessImage.ts): width,
height, and the RGBA byte buffer, four bytes per pixel, row-major. -/
structure RawImage where
  width : Nat
  height : Nat
  rgba : List (Fin 256)

/-- Result record of preprocessImage (preprocessImage.ts,
PreprocessResult type). -/
structure PreprocessResult where
  data : List ℚ
  dims : List Nat
  width : Nat
  height : Nat

/-- Byte read from the RGBA buffer, as a rational. -/
def byteAt (l : List (Fin 256)) (i : Nat) : ℚ := ((l.getD i 0).val : ℚ)

/-- One normalized channel plane: element i is channel c of pixel i
divided by 255 (preprocessImage.ts, lines 52-61; the three running
pointers write exactly the R plane, then the G plane, then the B plane,
each row-major). -/
def channelPlane (img : RawImage) (c : Nat) : List ℚ :=
  (List.range (img.width * img.height)).map fun i => byteAt img.rgba (4 * i + c) / 255

/-- Pure core of preprocessImage (preprocessImage.ts, lines 29-68):
guard the decoded dimensions against 640 by 640, then pack the
normalized R, G, B planes channel-major with declared shape
[1, 3, 640, 640]. -/
def preprocessImage (img : RawImage) : Except String PreprocessResult :=
  if img.width ≠ 640 ∨ img.height ≠ 640 then
    Except.error ("Unexpected decoded size: " ++ toString img.width ++ "x" ++ toString img.height)
  else
    Except.ok
      { data := channelPlane img 0 ++ channelPlane img 1 ++ channelPlane img 2
        dims := [1, 3, 640, 640]
        width := img.width
        height := img.height }

lemma channelPlane_length (img : RawImage) (c : Nat) :
    (channelPlane img c).length = img.width * img.height := by
  simp [channelPlane]

lemma channelPlane_getD (img : RawImage) (c i : Nat) (h : i < img.width * img.height) :
    (channelPlane img c).getD i 0 = byteAt img.rgba (4 * i + c) / 255 := by
  simp [channelPlane, List.getElem?_range h]

lemma channelPlane_mem_unitInterval (img : RawImage) (c : Nat) :
    ∀ q ∈ channelPlane img c, 0 ≤ q ∧ q ≤ 1 := by
  intro q hq
  obtain ⟨i, _, rfl⟩ := List.mem_map.mp hq
  have h0 : (0 : ℚ) ≤ byteAt img.rgba (4 * i + c) := by
    exact_mod_cast Nat.cast_nonneg _
  have h255 : byteAt img.rgba (4 * i + c) ≤ 255 := by
    have := (img.rgba.getD (4 * i + c) 0).isLt
    unfold byteAt
    exact_mod_cast Nat.le_of_lt_succ this
  constructor
  · exact div_nonneg h0 (by norm_num)
  · rw [div_le_one (by norm_num)]
    linarith

/-- C6: for every decoded RGBA image, if the decoded dimensions are
640 by 640 then preprocessImage succeeds with a buffer of exactly
3 times 640 times 640 elements and declared shape [1, 3, 640, 640],
where the element at plane index c and pixel index i is channel c of
pixel i divided by 255, and every element lies in [0, 1]; and if the
decoded dimensions are not 640 by 640 it fails with an error. -/
theorem preprocessImage_spec (img : RawImage) :
    (img.width = 640 → img.height = 640 →
      ∃ res, preprocessImage img = Except.ok res
        ∧ res.data.length = 3 * (640 * 640)
        ∧ res.dims = [1, 3, 640, 640]
        ∧ (∀ c, c < 3 → ∀ i, i < 640 * 640 →
            res.data.getD (c * (640 * 640) + i) 0 = byteAt img.rgba (4 * i + c) / 255)
        ∧ (∀ q ∈ res.data, 0 ≤ q ∧ q ≤ 1))
    ∧ ((img.width ≠ 640 ∨ img.height ≠ 640) →
        ∃ msg, preprocessImage img = Except.error msg) := by
  constructor
  · intro hw hh
    have hcond : ¬ (img.width ≠ 640 ∨ img.height ≠ 640) := by
      push_neg
      exact ⟨hw, hh⟩
    refine ⟨_, by rw [preprocessImage, if_neg hcond], ?_, rfl, ?_, ?_⟩
    · simp only [List.length_append, channelPlane_length, hw, hh]
    · intro c hc i hi
      have hpix : img.width * img.height = 640 * 640 := by rw [hw, hh]
      have hlen0 : (channelPlane img 0).length = 640 * 640 := by
        rw [channelPlane_length, hpix]
      have hlen1 : (channelPlane img 1).length = 640 * 640 := by
        rw [channelPlane_length, hpix]
      have hlen2 : (channelPlane img 2).length = 640 * 640 := by
        rw [channelPlane_length, hpix]
      have hlen01 : (channelPlane img 0 ++ channelPlane img 1).length = 2 * (640 * 640) := by
        rw [List.length_append, hlen0, hlen1]
      have hc3 : c = 0 ∨ c = 1 ∨ c = 2 := by omega
      simp only [List.getD_eq_getElem?_getD]
      rcases hc3 with rfl | rfl | rfl
      · rw [List.getElem?_append_left (by rw [hlen01]; omega),
          List.getElem?_append_left (by rw [hlen0]; omega)]
        have := channelPlane_getD img 0 i (by omega)
        simpa using this
      · rw [List.getElem?_append_left (by rw [hlen01]; omega),
          List.getElem?_append_right (by rw [hlen0]; omega)]
        have := channelPlane_getD img 1 i (by omega)
        rw [hlen0, show 1 * (640 * 640) + i - (640 * 640) = i by omega]
        simpa using this
      · rw [List.getElem?_append_right (by rw [hlen01]; omega)]
        have := channelPlane_getD img 2 i (by omega)
        rw [hlen01, show 2 * (640 * 640) + i - 2 * (640 * 640) = i by omega]
        simpa using this
    · intro q hq
      rcases List.mem_append.mp hq with h | h
      · rcases List.mem_append.mp h with h | h
        · exact channelPlane_mem_unitInterval img 0 q h
        · exact channelPlane_mem_unitInterval img 1 q h
      · exact channelPlane_mem_unitInterval img 2 q h
  · intro hcond
    exact ⟨_, by rw [preprocessImage, if_pos hcond]⟩

/-- C6 witness: on a 640 by 640 image (with an empty byte buffer, whose
out-of-range reads decode as 0) the preprocessor succeeds with the
declared shape, and on a 100 by 100 image it fails with an error. -/
theorem preprocessImage_spec_witness :
    (∃ res, preprocessImage ⟨640, 640, []⟩ = Except.ok res
      ∧ res.data.length = 3 * (640 * 640)
      ∧ res.dims = [1, 3, 640, 640]
      ∧ (∀ c, c < 3 → ∀ i, i < 640 * 640 →
          res.data.getD (c * (640 * 640) + i) 0 = byteAt ([] : List (Fin 256)) (4 * i + c) / 255)
      ∧ (∀ q ∈ res.data, 0 ≤ q ∧ q ≤ 1))
    ∧ ∃ msg, preprocessImage ⟨100, 100, []⟩ = Except.error msg :=
  ⟨(preprocessImage_spec ⟨640, 640, []⟩).1 rfl rfl,
    (preprocessImage_spec ⟨100, 100, []⟩).2 (Or.inl (by norm_num))⟩

/-- Bounding box stored on a tree record (treeDatabase.ts,
BoundingBox interface). -/
structure BoundingBox where
  x : ℚ
  y : ℚ
  width : ℚ
  height : ℚ
deriving DecidableEq

/-- Tree record persisted by insertTree (treeDatabase.ts, TreeRecord
interface, as assembled by saveSelectedTrees). -/
structure TreeRecord where
  imageUri : String
  boundingBox : BoundingBox
  dateTaken : String
  description : String
  additionalImages : List String
  cropPath : String
deriving DecidableEq

/-- Record assembled for one selected tree in the save loop of
saveSelectedTrees (tree-detection.tsx, lines 156-189). The cropResult
argument models the outcome of cropTreeWithDimensions for each tree:
some path on success, none when the crop throws, in which case the
caught error leaves cropPath as the empty string and the save
continues. -/
def assembleTreeRecord (imageUri currentDate : String)
    (cropResult : DetectedTree → Option String) (tree : DetectedTree) : TreeRecord :=
  { imageUri := imageUri
    boundingBox := ⟨tree.x, tree.y, tree.width, tree.height⟩
    dateTaken := currentDate
    description := ""
    additionalImages := []
    cropPath := (cropResult tree).getD "" }

/-- Save loop of saveSelectedTrees (tree-detection.tsx, lines 153-194):
one insertTree per selected tree, appending to the record store in
order. -/
def saveLoop (imageUri currentDate : String) (cropResult : DetectedTree → Option String)
    (db : List TreeRecord) : List DetectedTree → List TreeRecord
  | [] => db
  | t :: ts =>
    saveLoop imageUri currentDate cropResult
      (db ++ [assembleTreeRecord imageUri currentDate cropResult t]) ts

/-- Outcome reported by saveSelectedTrees: the no-selection alert, or
the success alert carrying the number of saved trees. -/
inductive SaveOutcome where
  | validationError : SaveOutcome
  | success : Nat → SaveOutcome
deriving DecidableEq

/-- Pure model of saveSelectedTrees (tree-detection.tsx, lines 139-215):
filter the detections to the selected ones; with zero selected, report a
validation error and return before touching the store; otherwise run the
save loop with one shared capture timestamp. -/
def saveSelectedTrees (detectedTrees : List DetectedTree) (imageUri currentDate : String)
    (cropResult : DetectedTree → Option String) (db : List TreeRecord) :
    List TreeRecord × SaveOutcome :=
  let selectedTrees := detectedTrees.filter (·.selected)
  if selectedTrees.length = 0 then
    (db, SaveOutcome.validationError)
  else
    (saveLoop imageUri currentDate cropResult db selectedTrees,
      SaveOutcome.success selectedTrees.length)

/-- C7: invoked with zero detections marked selected, saveSelectedTrees
reports a validation error and returns with the record store unchanged:
no record is persisted. -/
theorem saveSelectedTrees_empty_selection (detectedTrees : List DetectedTree)
    (imageUri currentDate : String) (cropResult : DetectedTree → Option String)
    (db : List TreeRecord) (h : detectedTrees.filter (·.selected) = []) :
    saveSelectedTrees detectedTrees imageUri currentDate cropResult db
      = (db, SaveOutcome.validationError) := by
  rw [saveSelectedTrees]
  simp [h]

/-- C7 witness: a single detection with selected = false triggers the
validation error and leaves a one-record store untouched. -/
theorem saveSelectedTrees_empty_selection_witness :
    saveSelectedTrees [⟨"tree_1", 0, 0, 1, 1, 1, 1, false⟩] "photo.jpg" "2024-01-01"
        (fun _ => none) [⟨"old.jpg", ⟨0, 0, 1, 1⟩, "2023-12-31", "", [], ""⟩]
      = ([⟨"old.jpg", ⟨0, 0, 1, 1⟩, "2023-12-31", "", [], ""⟩], SaveOutcome.validationError) :=
  saveSelectedTrees_empty_selection [⟨"tree_1", 0, 0, 1, 1, 1, 1, false⟩] "photo.jpg"
    "2024-01-01" (fun _ => none) [⟨"old.jpg", ⟨0, 0, 1, 1⟩, "2023-12-31", "", [], ""⟩]
    (by simp [List.filter])

lemma saveLoop_eq_append (imageUri currentDate : String)
    (cropResult : DetectedTree → Option String) (db : List TreeRecord)
    (ts : List DetectedTree) :
    saveLoop imageUri currentDate cropResult db ts
      = db ++ ts.map (assembleTreeRecord imageUri currentDate cropResult) := by
  induction ts generalizing db with
  | nil => simp [saveLoop]
  | cons t ts ih => simp [saveLoop, ih]

/-- C8: with a nonempty selection, the batch save appends exactly one
record per selected detection, in order, regardless of which crops fail:
a detection whose crop fails (cropResult none) still gets a persisted
record with an empty crop reference, the remaining selected detections
are still processed, and all records of the batch share the same capture
timestamp. -/
theorem saveSelectedTrees_batch (detectedTrees : List DetectedTree)
    (imageUri currentDate : String) (cropResult : DetectedTree → Option String)
    (db : List TreeRecord) (h : detectedTrees.filter (·.selected) ≠ []) :
    (saveSelectedTrees detectedTrees imageUri currentDate cropResult db).1
      = db ++ (detectedTrees.filter (·.selected)).map
          (assembleTreeRecord imageUri currentDate cropResult)
    ∧ (∀ t ∈ detectedTrees.filter (·.selected),
        (assembleTreeRecord imageUri currentDate cropResult t).dateTaken = currentDate)
    ∧ (∀ t ∈ detectedTrees.filter (·.selected), cropResult t = none →
        (assembleTreeRecord imageUri currentDate cropResult t).cropPath = "") := by
  refine ⟨?_, fun t _ => rfl, fun t _ hnone => ?_⟩
  · rw [saveSelectedTrees]
    simp only [if_neg (fun hlen => h (List.length_eq_zero.mp hlen))]
    exact saveLoop_eq_append imageUri currentDate cropResult db _
  · simp [assembleTreeRecord, hnone]

/-- C8 witness: two selected detections, the first crop failing and the
second succeeding, produce exactly two appended records sharing the
timestamp, the first with an empty crop reference. -/
theorem saveSelectedTrees_batch_witness :
    (saveSelectedTrees [⟨"tree_1", 0, 0, 1, 1, 1, 1, true⟩, ⟨"tree_2", 0, 0, 1, 1, 1, 1, true⟩]
        "photo.jpg" "2024-01-01"
        (fun t => if t.id = "tree_1" then none else some "crop2.jpg") []).1
      = [] ++ ([⟨"tree_1", 0, 0, 1, 1, 1, 1, true⟩,
            ⟨"tree_2", 0, 0, 1, 1, 1, 1, true⟩].filter (·.selected)).map
          (assembleTreeRecord "photo.jpg" "2024-01-01"
            (fun t => if t.id = "tree_1" then none else some "crop2.jpg"))
    ∧ (assembleTreeRecord "photo.jpg" "2024-01-01"
        (fun t => if t.id = "tree_1" then none else some "crop2.jpg")
        ⟨"tree_1", 0, 0, 1, 1, 1, 1, true⟩).cropPath = ""
    ∧ (assembleTreeRecord "photo.jpg" "2024-01-01"
        (fun t => if t.id = "tree_1" then none else some "crop2.jpg")
        ⟨"tree_1", 0, 0, 1, 1, 1, 1, true⟩).dateTaken = "2024-01-01" := by
  have h := saveSelectedTrees_batch
    [⟨"tree_1", 0, 0, 1, 1, 1, 1, true⟩, ⟨"tree_2", 0, 0, 1, 1, 1, 1, true⟩]
    "photo.jpg" "2024-01-01" (fun t => if t.id = "tree_1" then none else some "crop2.jpg") []
    (by simp [List.filter])
  refine ⟨h.1, ?_, ?_⟩
  · exact h.2.2 ⟨"tree_1", 0, 0, 1, 1, 1, 1, true⟩ (by simp [List.filter]) (by simp)
  · exact h.2.1 ⟨"tree_1", 0, 0, 1, 1, 1, 1, true⟩ (by simp [List.filter])

/-- Row of the trees table (treeDatabase.ts, lines 49-61). -/
structure TreeRow where
  id : Nat
  imageUri : String
  boundingBoxX : ℚ
  boundingBoxY : ℚ
  boundingBoxWidth : ℚ
  boundingBoxHeight : ℚ
  dateTaken : String
  description : String
  additionalImages : String
  cropPath : String
  taxonName : Option String
deriving DecidableEq

/-- Row of the defects table (treeDatabase.ts, lines 63-74). -/
structure DefectRow where
  defect_id : Nat
  tree_id : Nat
  xtl : ℚ
  ytl : ℚ
  xbr : ℚ
  ybr : ℚ
  image_path : String
  crop_path : String
  defect_type : String
deriving DecidableEq

/-- Record store with the declared schema (treeDatabase.ts, lines
46-75): a trees table and a defects table whose tree_id column declares
FOREIGN KEY (tree_id) REFERENCES trees (id) ON DELETE CASCADE. -/
structure TreeDB where
  trees : List TreeRow
  defects : List DefectRow
deriving DecidableEq

/-- deleteTree (treeDatabase.ts, lines 234-245): DELETE FROM trees
WHERE id = ?. Under the cascade action declared by the schema, deleting
a tree row also removes every defect row whose tree_id references a
deleted row. -/
def deleteTree (db : TreeDB) (id : Nat) : TreeDB :=
  let deletedIds := (db.trees.filter fun t => decide (t.id = id)).map TreeRow.id
  { trees := db.trees.filter fun t => decide (t.id ≠ id)
    defects := db.defects.filter fun d => decide (d.tree_id ∉ deletedIds) }

/-- C9: for a store satisfying referential integrity (every defect
references an existing tree, which the declared foreign key maintains),
deleteTree removes the tree with the given id and every defect record
whose tree_id references it: afterwards no tree row with that id and no
defect row with that tree_id remains. -/
theorem deleteTree_cascades (db : TreeDB) (id : Nat)
    (h : ∀ d ∈ db.defects, ∃ t ∈ db.trees, t.id = d.tree_id) :
    (∀ t ∈ (deleteTree db id).trees, t.id ≠ id)
    ∧ (∀ d ∈ (deleteTree db id).defects, d.tree_id ≠ id) := by
  constructor
  · intro t ht
    have := (List.mem_filter.mp ht).2
    simpa using this
  · intro d hd heq
    obtain ⟨hdmem, hnot⟩ := List.mem_filter.mp hd
    have hnot' : d.tree_id ∉
        (db.trees.filter fun t => decide (t.id = id)).map TreeRow.id := by
      simpa using hnot
    obtain ⟨t, htmem, hts⟩ := h d hdmem
    exact hnot' (List.mem_map.mpr
      ⟨t, List.mem_filter.mpr ⟨htmem, by simp [hts, heq]⟩, hts⟩)

/-- C9 witness: a store with trees 1 and 2, each owning one defect;
deleting tree 1 keeps exactly the defect of tree 2, whose tree_id does
not reference the deleted tree. -/
theorem deleteTree_cascades_witness :
    ((⟨2, 2, 0, 0, 1, 1, "b.jpg", "c2.jpg", "crack"⟩ : DefectRow)
        ∈ (deleteTree ⟨[⟨1, "a.jpg", 0, 0, 1, 1, "d1", "", "[]", "", none⟩,
            ⟨2, "b.jpg", 0, 0, 1, 1, "d2", "", "[]", "", none⟩],
          [⟨1, 1, 0, 0, 1, 1, "a.jpg", "c1.jpg", "rot"⟩,
            ⟨2, 2, 0, 0, 1, 1, "b.jpg", "c2.jpg", "crack"⟩]⟩ 1).defects)
    ∧ ((⟨2, 2, 0, 0, 1, 1, "b.jpg", "c2.jpg", "crack"⟩ : DefectRow).tree_id ≠ 1) := by
  have hmem : (⟨2, 2, 0, 0, 1, 1, "b.jpg", "c2.jpg", "crack"⟩ : DefectRow)
      ∈ (deleteTree ⟨[⟨1, "a.jpg", 0, 0, 1, 1, "d1", "", "[]", "", none⟩,
          ⟨2, "b.jpg", 0, 0, 1, 1, "d2", "", "[]", "", none⟩],
        [⟨1, 1, 0, 0, 1, 1, "a.jpg", "c1.jpg", "rot"⟩,
          ⟨2, 2, 0, 0, 1, 1, "b.jpg", "c2.jpg", "crack"⟩]⟩ 1).defects := by
    simp [deleteTree, List.filter]
  refine ⟨hmem, ?_⟩
  exact (deleteTree_cascades ⟨[⟨1, "a.jpg", 0, 0, 1, 1, "d1", "", "[]", "", none⟩,
      ⟨2, "b.jpg", 0, 0, 1, 1, "d2", "", "[]", "", none⟩],
    [⟨1, 1, 0, 0, 1, 1, "a.jpg", "c1.jpg", "rot"⟩,
      ⟨2, 2, 0, 0, 1, 1, "b.jpg", "c2.jpg", "crack"⟩]⟩ 1
    (by
      intro d hd
      rcases List.mem_cons.mp hd with rfl | hd2
      · exact ⟨⟨1, "a.jpg", 0, 0, 1, 1, "d1", "", "[]", "", none⟩, by simp, rfl⟩
      · rcases List.mem_cons.mp hd2 with rfl | hd3
        · exact ⟨⟨2, "b.jpg", 0, 0, 1, 1, "d2", "", "[]", "", none⟩, by simp, rfl⟩
        · simp at hd3)).2
    ⟨2, 2, 0, 0, 1, 1, "b.jpg", "c2.jpg", "crack"⟩ hmem
